import Mathlib

/-!
# Verification of the DnD conversational-agent engine core

Shallow embedding, in Lean 4, of the parts of the repository
(`gameRenderer.py`, `actions.py`, `turnHandler.py`,
`Dnd tryout user testing/InputProcessor.py`,
`Dnd tryout user testing/gameEvents.py`) that the checked claims are about,
together with proofs settling each claim.

Conventions:
* Python `int` is modelled as `Int`; Python float arithmetic appearing in the
  damage / witness-penalty formulas is modelled with exact rational arithmetic
  carried on numerator/denominator pairs, and `round` with Python's
  round-half-to-even (`pythonRoundDiv`). For the small integer stats the
  engine uses, the float and exact computations agree.
* Python objects used as dictionary keys / list entries are modelled by
  numeric identifiers (`Nat`); `dict` becomes an association list or a total
  function, `list` becomes `List`.
* A Python method that raises is modelled by the value the surrounding
  `try/except` produces.
-/

/-- Python's `round` applied to the exact rational `num / den` (`den > 0`):
round half to even. Rationals are carried as numerator/denominator pairs so
every formula stays kernel-computable. -/
def pythonRoundDiv (num den : Int) : Int :=
  let f := num.fdiv den
  let r2 := 2 * (num - f * den)
  if r2 < den then f
  else if den < r2 then f + 1
  else if f % 2 = 0 then f else f + 1

/-! ## Friendship model (`gameRenderer.Character`, lines 214, 568-577)

`Character.friendships` is a `dict` keyed by `Character`; we key by `Nat`.
Reads go through `friendships.get(other, 5)`, i.e. default 5.
-/

/-- Identifier of a `Character` object. -/
abbrev CharId := Nat

/-- `Character.friendships` as an association list (a Python dict). -/
abbrev Friendships := List (CharId × Int)

/-- `self.friendships.get(character, 5)` (also the body of
`Character.friendship_with`, gameRenderer.py line 576-577). -/
def friendship_with : Friendships → CharId → Int
  | [], _ => 5
  | p :: rest, c => if p.1 = c then p.2 else friendship_with rest c

/-- `self.friendships[character] = v` (dict assignment; keys are unique in a
Python dict, so replacing the first matching entry is faithful). -/
def setFriendship : Friendships → CharId → Int → Friendships
  | [], c, v => [(c, v)]
  | p :: rest, c, v => if p.1 = c then (c, v) :: rest else p :: setFriendship rest c v

/-- `Character.update_friendship_with` (gameRenderer.py lines 568-574):

```python
current_level = self.friendships.get(character, 5)
if current_level != 0:   # 0 = immutable hostility
    new_level = current_level + amount
    if new_level <= 1:
        new_level = 1
    self.friendships[character] = max(0, min(new_level, 10))
```
-/
def update_friendship_with (f : Friendships) (c : CharId) (amount : Int) : Friendships :=
  let currentLevel := friendship_with f c
  if currentLevel ≠ 0 then
    let newLevel := currentLevel + amount
    let newLevel := if newLevel ≤ 1 then 1 else newLevel
    setFriendship f c (max 0 (min newLevel 10))
  else f

/-- `process_steal_action` friendship update (actions.py lines 2318-2321):

```python
current_friendship = target.friendship_with(thief)
new_friendship = max(0, current_friendship - 1)
target.friendships[thief] = new_friendship
```
-/
def steal_friendship_update (f : Friendships) (thief : CharId) : Friendships :=
  setFriendship f thief (max 0 (friendship_with f thief - 1))

/-- `process_give_item_action` friendship bump on a happy accept
(actions.py line 1794): `target.update_friendship_with(character, 1)`. -/
def give_friendship_update (f : Friendships) (giver : CharId) : Friendships :=
  update_friendship_with f giver 1

/-- `process_harm_action` victim-side friendship update
(actions.py lines 2013-2019):

```python
cur = target.friendship_with(character)
if cur > 0:
    target.update_friendship_with(character, -cur)
```
-/
def harm_victim_friendship_update (f : Friendships) (attacker : CharId) : Friendships :=
  let cur := friendship_with f attacker
  if cur > 0 then update_friendship_with f attacker (-cur) else f

/-- All values stored in a friendships dict lie in `[0..10]`. -/
def friendshipsInRange (f : Friendships) : Prop :=
  ∀ p ∈ f, 0 ≤ p.2 ∧ p.2 ≤ 10

instance (f : Friendships) : Decidable (friendshipsInRange f) := by
  unfold friendshipsInRange; infer_instance

/-! ## Character health and combat model

`gameRenderer.Character` (`__init__`, lines 193-264; health methods, lines
533-565) and `actions.process_harm_action` (lines 1907-2084). The fields that
the checked claims touch are carried explicitly; `weaponDamage` models the
legacy `self.weapon` pointer (the strongest equipped hand item, maintained by
`_set_weapon_from_hands`), as `none` when `self.weapon is None`, otherwise
`some` of that item's `damage`.
-/

/-- The slice of `gameRenderer.Character` state used by the harm/health
claims. -/
structure HChar where
  name : String
  health : Int
  isAlive : Bool
  friendships : Friendships
  strength : Int
  skill : Int
  weaponDamage : Option Int
  party : List CharId
  areaId : Nat
deriving DecidableEq

/-- `Character._clamp_health` (gameRenderer.py lines 533-539). -/
def clamp_health (c : HChar) : HChar :=
  let c := if c.health > 100 then { c with health := 100 } else c
  if c.health ≤ 0 then { c with health := 0, isAlive := false } else c

/-- `Character.apply_damage` (gameRenderer.py lines 541-549); returns the
mutated character and the method's return value (health actually lost). -/
def apply_damage (c : HChar) (amount : Int) : HChar × Int :=
  let amount := if amount < 0 then 0 else amount
  if ¬ c.isAlive then (c, 0)
  else
    let before := c.health
    let c' := clamp_health { c with health := c.health - amount }
    (c', before - c'.health)

/-- `Character.heal` (gameRenderer.py lines 551-559). -/
def heal (c : HChar) (amount : Int) : HChar × Int :=
  let amount := if amount < 0 then 0 else amount
  if ¬ c.isAlive then (c, 0)
  else
    let before := c.health
    let c' := clamp_health { c with health := c.health + amount }
    (c', c'.health - before)

/-- `Character.update_health` (gameRenderer.py lines 561-565). -/
def update_health (c : HChar) (amount : Int) : HChar :=
  if amount ≥ 0 then (heal c amount).1 else (apply_damage c (-amount)).1

/-! ## Damage model (`process_harm_action`, actions.py lines 1907-2084) -/

/-- `equipped_weapon` (actions.py lines 1932-1938). The helper looks up the
equipment slots `"hand_right"` and `"hand_left"`, but `Character.__init__`
(gameRenderer.py lines 246-254) creates only the keys `head`, `torso`, `legs`,
`left_hand`, `right_hand`, `extra`, and `Character.equip`/`unequip_slot` only
ever write those keys, so `eq.get("hand_right")` and `eq.get("hand_left")`
always return `None`; the helper falls through to `getattr(who, "weapon",
None)`, the legacy pointer maintained by `_set_weapon_from_hands`
(gameRenderer.py lines 340-349). `HChar.weaponDamage` carries that pointer's
`damage` (`none` when `self.weapon is None`). -/
def equipped_weapon_damage (c : HChar) : Option Int := c.weaponDamage

/-- `compute_damage` (actions.py lines 1940-1951):

```python
wpn = equipped_weapon(attacker)
base = int(getattr(wpn, "damage", 0)) or 5
strv = int(getattr(attacker, "strength", 5))
skl  = int(getattr(attacker, "skill", 5))
scaled = int(round(base * (1.0 + (strv + skl) / 20.0)))
return max(1, scaled)
```

`getattr(None, "damage", 0)` is `0`, and `0 or 5` is `5`, so `base` is `5`
both when no weapon is equipped and when the equipped weapon has damage `0`.
`base * (1 + (s+k)/20)` is the exact rational `base*(20+s+k) / 20`. -/
def compute_damage (c : HChar) : Int :=
  let base : Int :=
    match equipped_weapon_damage c with
    | none => 5
    | some d => if d = 0 then 5 else d
  max 1 (pythonRoundDiv (base * (20 + c.strength + c.skill)) 20)

/-- The damage formula exactly as claim C6 words it: `max(1, round(
weapon_damage × (1 + (strength + skill)/20)))`, where `weapon_damage`
defaults to 5 (only) when no weapon is equipped. -/
def spec_damage_C6 (weaponDamage : Option Int) (strength skill : Int) : Int :=
  max 1 (pythonRoundDiv (weaponDamage.getD 5 * (20 + strength + skill)) 20)

/-- C6 as amended: `weapon_damage` is replaced by 5 both when no weapon is
equipped and when the equipped weapon's damage is 0. -/
def spec_damage_C6_amended (weaponDamage : Option Int) (strength skill : Int) : Int :=
  let wd := weaponDamage.getD 5
  let wd := if wd = 0 then 5 else wd
  max 1 (pythonRoundDiv (wd * (20 + strength + skill)) 20)

/-! ## Witness-violence model (`Character.witness_violence`,
gameRenderer.py lines 580-642, and its call site,
actions.py lines 2021-2030) -/

/-- `gameRenderer.Character` defines no method `set_friendship_with`: the only
occurrence of that name in the repository is the call
`self.set_friendship_with(aggressor, new_val)` on gameRenderer.py line 638.
That call therefore raises `AttributeError`, which the blanket
`except Exception` on lines 640-642 swallows. -/
def characterHasSetFriendshipWith : Bool := false

/-- The penalty arithmetic of `Character.witness_violence`
(gameRenderer.py lines 607-627), with `severity` carried as the exact
rational `sevNum / sevDen`:

```python
affinity = max(0.0, min(1.0, vic_friend / 10.0))    # = max(0,min(10,vic))/10
base_from_sev = 1 + int(round(4 * float(severity)))
kill_bonus = 3 if killed else 0
penalty = int(round(base_from_sev * affinity)) + int(round(kill_bonus * affinity))
if vic_friend < 2:
    penalty = max(0, penalty - 2)
```
-/
def witness_violence_penalty (vicFriend : Int) (sevNum sevDen : Int) (killed : Bool) : Int :=
  let affinityNum := max 0 (min 10 vicFriend)
  let baseFromSev := 1 + pythonRoundDiv (4 * sevNum) sevDen
  let killBonus : Int := if killed then 3 else 0
  let penalty := pythonRoundDiv (baseFromSev * affinityNum) 10 +
    pythonRoundDiv (killBonus * affinityNum) 10
  if vicFriend < 2 then max 0 (penalty - 2) else penalty

/-- The effect of one `witness_violence(self, aggressor, victim, severity,
killed)` call on `self.friendships` (gameRenderer.py lines 597-642), given
`vicFriend = self.friendship_with(victim)`. The `aggressor is None` /
`aggressor is self` / `self is victim` early returns also leave the map
unchanged, so only the alive guard and the penalty path are written out. When
the penalty is positive the method attempts
`self.set_friendship_with(aggressor, max(0, min(10, cur - penalty)))`; since
`Character` has no such method this raises, the outer handler swallows the
exception, and no friendship is modified. -/
def witness_violence_effect (hasSetFriendshipWith : Bool) (selfFriend : Friendships)
    (aggressor : CharId) (vicFriend : Int) (sevNum sevDen : Int) (killed : Bool)
    (selfAlive : Bool) : Friendships :=
  if ¬ selfAlive then selfFriend
  else
    let penalty := witness_violence_penalty vicFriend sevNum sevDen killed
    if penalty ≤ 0 then selfFriend
    else if hasSetFriendshipWith then
      setFriendship selfFriend aggressor
        (max 0 (min 10 (friendship_with selfFriend aggressor - penalty)))
    else selfFriend

/-- The witness phase of `process_harm_action` (actions.py lines 2021-2030):

```python
try:
    wit = gameRenderer.Character.witness_violence(
        perpetrator=character, victim=target, action="harm", damage=dmg, killed=killed
    )
except TypeError:
    wit = gameRenderer.Character.witness_violence(character, target, "harm")
except Exception:
    wit = ""
```

`witness_violence` is declared as `witness_violence(self, aggressor, victim,
severity=1.0, killed=False)` (gameRenderer.py lines 580-587); the first call
passes the unexpected keyword `perpetrator`, so it raises `TypeError` before
the body runs. The fallback binds `self := character` (the attacker),
`aggressor := target` (the victim) and `victim := "harm"` (a string), with
`severity = 1.0` and `killed = False`. `self.friendship_with("harm")` is
`friendships.get("harm", 5) = 5` since the dict is keyed by characters. The
single call therefore operates on the ATTACKER's friendships toward the
VICTIM — no witness in the area is ever visited — and even that mutation dies
in the missing `set_friendship_with`. -/
def process_harm_witness_phase (attackerFriend : Friendships) (victimId : CharId)
    (attackerAlive : Bool) : Friendships :=
  witness_violence_effect characterHasSetFriendshipWith attackerFriend victimId 5 1 1 false
    attackerAlive

/-! ## The harm action (`process_harm_action`, actions.py lines 1995-2084) -/

/-- The world slice `process_harm_action` reads and writes: the characters
(by id) and each area's `characters` list (`SubArea.characters`). -/
structure HWorld where
  chars : CharId → HChar
  residents : Nat → List CharId

/-- Mutate one character object in place. -/
def updHChar (w : HWorld) (c : CharId) (f : HChar → HChar) : HWorld :=
  { w with chars := fun x => if x = c then f (w.chars x) else w.chars x }

/-- `process_harm_action` (actions.py lines 1995-2084), restricted to its
effects on character state; returns the updated world and `dmg`. Narration
strings are dropped. The FightEvent bookkeeping (lines 2044-2045) creates or
extends an event object, and the group cascade (lines 2047-2074) only queues
`harm` steps on the turn handler for the attacker's allies; neither touches
any character's health, friendships or other fields modelled here. -/
def process_harm (w : HWorld) (attacker victim : CharId) : HWorld × Int :=
  let here := (w.chars attacker).areaId
  if victim ∉ w.residents here then (w, 0)
  else if ¬ (w.chars attacker).isAlive then (w, 0)
  else if ¬ (w.chars victim).isAlive then (w, 0)
  else
    let dmg := compute_damage (w.chars attacker)
    let w1 := updHChar w victim (fun v => update_health v (-dmg))
    let killed := (w1.chars victim).health ≤ 0
    let w2 := updHChar w1 victim
      (fun v => { v with friendships := harm_victim_friendship_update v.friendships attacker })
    let w3 := updHChar w2 attacker
      (fun a => { a with friendships := process_harm_witness_phase a.friendships victim a.isAlive })
    let w4 := if killed then
        updHChar w3 victim (fun v => { v with isAlive := false, health := 0, party := [] })
      else w3
    (w4, dmg)

/-- Scenario world for the harm claims: character 0 (the attacker, armed with
a damage-40 weapon), character 1 (the victim, 10 health, friendship 8 toward
the attacker) and character 2 (a bystander witness who fully cares about the
victim: friendship 10 toward the victim, 5 toward the attacker), all alive
and co-present in area 0. -/
def c1World : HWorld :=
  { chars := fun c =>
      if c = 0 then ⟨"Attacker", 100, true, [], 5, 5, some 40, [], 0⟩
      else if c = 1 then ⟨"Victim", 10, true, [(0, 8)], 5, 5, none, [], 0⟩
      else ⟨"Witness", 100, true, [(1, 10), (0, 5)], 5, 5, none, [], 0⟩,
    residents := fun a => if a = 0 then [0, 1, 2] else [] }

/-- Scenario world for claim C2: attacker 0 and victim 1 co-present in
area 0, the victim holding friendship 5 toward the attacker. -/
def c2World : HWorld :=
  { chars := fun c =>
      if c = 0 then ⟨"Attacker", 100, true, [], 5, 5, none, [], 0⟩
      else ⟨"Victim", 90, true, [(0, 5)], 5, 5, none, [], 0⟩,
    residents := fun a => if a = 0 then [0, 1] else [] }

/-- Scenario world for claim C6: the attacker (character 0) has an equipped
weapon of damage 0 — e.g. placed in a hand slot via
`Character.equip(item, slot="right_hand")`, which sets the legacy `weapon`
pointer — and strength 5, skill 5; the victim (character 1) is co-present. -/
def c6World : HWorld :=
  { chars := fun c =>
      if c = 0 then ⟨"Attacker", 100, true, [], 5, 5, some 0, [], 0⟩
      else ⟨"Victim", 50, true, [], 5, 5, none, [], 0⟩,
    residents := fun a => if a = 0 then [0, 1] else [] }

/-! ## Python string helpers

`String.toLower`/`trim` from core Lean do not reduce inside the kernel, so
Python's `.strip().lower()` is modelled structurally over the character
list. -/

/-- `str.lower()` on one ASCII character. -/
def pyLowerChar (c : Char) : Char :=
  if 65 ≤ c.toNat ∧ c.toNat ≤ 90 then Char.ofNat (c.toNat + 32) else c

/-- Python `str.strip()` whitespace set. -/
def pyIsSpace (c : Char) : Bool :=
  c = ' ' || c = '\t' || c = '\n' || c = '\r' || c = '\x0b' || c = '\x0c'

/-- Python `s.strip().lower()`. -/
def pyStripLower (s : String) : String :=
  ⟨(((s.data.dropWhile pyIsSpace).reverse.dropWhile pyIsSpace).reverse).map pyLowerChar⟩

/-! ## End-of-game check and the periodic suggestion
(`Dnd tryout user testing/InputProcessor.py`, `checkEnd` lines 555-581 and
`get_story` step 9, lines 2431-2477) -/

/-- The game state read by `checkEnd`: the player's health and current area,
and Larry's health. -/
structure EndCheckState where
  playerHealth : Int
  playerAreaPresent : Bool
  playerAreaIsFarAwayObject : Bool
  playerAreaName : String
  playerAreaFarFlag : Bool
  larryHealth : Int

/-- `checkEnd` (InputProcessor.py lines 555-581):

```python
if p.health == 0: return 1
in_far_away = (cur is gameSetup.far_away)        # except -> False
if not in_far_away and cur is not None:
    name = getattr(cur, "name", "").strip().lower()
    flag = bool(getattr(cur, "is_far_away", False))
    in_far_away = flag or (name == "far away" or name == "far_away")
if in_far_away or getattr(gameSetup.larry, "health", 0) >= 30: return 2
return 0
```

Every path returns an `int` (1, 2 or 0); the function can never return
Python `None`, so its result is `some` of an integer. -/
def checkEnd (s : EndCheckState) : Option Int :=
  if s.playerHealth = 0 then some 1
  else
    let inFarAway := s.playerAreaIsFarAwayObject
    let inFarAway :=
      if !inFarAway && s.playerAreaPresent then
        s.playerAreaFarFlag ||
          (pyStripLower s.playerAreaName == "far away") ||
          (pyStripLower s.playerAreaName == "far_away")
      else inFarAway
    if inFarAway ∨ s.larryHealth ≥ 30 then some 2 else some 0

/-- The periodic-suggestion logic at the end of `get_story`
(InputProcessor.py lines 2434-2477):

```python
gameOver = checkEnd()
...
if gameOver == None:
    g["completed_action_turns"] = int(g.get("completed_action_turns") or 0) + 1
    if (g["completed_action_turns"] % 2) == 0:
        tip = AIconversation(...)
        if isinstance(tip, str) and tip.strip():
            story = story.rstrip() + "\n\n" + tip.strip()
```

`tip` stands for the Conversation responder's (non-empty, stripped)
suggestion; the result is the new counter value and the returned story. -/
def get_story_suggestion_step (s : EndCheckState) (completedActionTurns : Int)
    (story tip : String) : Int × String :=
  let gameOver := checkEnd s
  if gameOver = none then
    let counter := completedActionTurns + 1
    if counter % 2 = 0 then (counter, story ++ "\n\n" ++ tip)
    else (counter, story)
  else (completedActionTurns, story)

/-! ## The move action and its group-follow queue
(`Character.move_to`, gameRenderer.py lines 267-294, and
`process_move_action`, actions.py lines 1117-1281) -/

/-- The character slice `process_move_action` touches. -/
structure MChar where
  areaId : Nat
  party : List Nat
  isAlive : Bool
deriving DecidableEq

/-- World state for the move action: every character object, by id. -/
abbrev MState := Nat → MChar

/-- `Character.move_to` (gameRenderer.py lines 267-294): the mover AND every
member of `self.party` (regardless of where they are or whether they are
alive) are relocated to `target_area`. The `Area.characters` resident lists
and the knowledge updates are not modelled; party lists are unchanged. -/
def move_to (st : MState) (c : Nat) (dest : Nat) : MState :=
  fun x => if x = c ∨ x ∈ (st c).party then { st x with areaId := dest } else st x

/-- The hop loop of `process_move_action` (actions.py lines 1201-1247): for
each hop, re-check `event_manager.validate_movement(prev, dest)` and break if
it blocks, otherwise `character.move_to(dest)`. `path` is Python's
`path[1:]`; `blocked a b` models a non-`None` `validate_movement(a, b)`. -/
def walk_path (blocked : Nat → Nat → Bool) (c : Nat) : List Nat → MState → MState
  | [], st => st
  | d :: rest, st =>
    if blocked (st c).areaId d then st
    else walk_path blocked c rest (move_to st c d)

/-- `process_move_action` after the BFS (actions.py lines 1191-1279):
remember `allies_in_start` (alive party members in the starting area), walk
the path, then queue a `group-move` step `{action: "move", location:
final_dest}` for every ally of `allies_in_start` — skipping any ally already
in the destination ("safety" check, line 1257). Returns the post-walk state
and the queued `(ally, final_dest)` steps handed to
`turnHandler.queue_controller_actions(mapping, origin="group-move")`. -/
def process_move_group (blocked : Nat → Nat → Bool) (st : MState) (c : Nat)
    (path : List Nat) : MState × List (Nat × Nat) :=
  let startingArea := (st c).areaId
  let alliesInStart := (st c).party.filter
    (fun m => m != c && (st m).isAlive && ((st m).areaId == startingArea))
  let st' := walk_path blocked c path st
  let finalDest := (st' c).areaId
  let mapping := alliesInStart.filterMap
    (fun a => if (st' a).areaId = finalDest then none else some (a, finalDest))
  (st', mapping)

/-! ## Blockade events
(`Dnd tryout user testing/gameEvents.py`, `BlockadeEvent`, lines 543-697) -/

/-- The item fields `BlockadeEvent.handle_action` reads. -/
structure BItem where
  name : String
  robustness : Int
deriving DecidableEq

/-- A `BlockadeEvent` together with its `LinkingPoint`'s `blocked` flag
(`lpBlocked`). The constructor (lines 550-576) sets
`resolved_description = resolved_description or description`,
`is_resolved = False`, `is_blocking = True`, `is_active = True`. -/
structure Blockade where
  description : String
  resolvedDescription : String
  requiredItem : Option String
  isResolved : Bool
  isBlocking : Bool
  isActive : Bool
  lpBlocked : Bool
deriving DecidableEq

/-- `BlockadeEvent.resolve` (gameEvents.py lines 657-697):

```python
if self.is_resolved: return
self.is_resolved = True
self.is_blocking = False
self.is_active = False
if self.resolved_description:
    self.description = self.resolved_description
... setattr(lp, "blocked", False) ...
```

The best-effort removal of the event from the two areas' `active_events`
lists and from the manager registry (lines 682-697) is not modelled. -/
def blockade_resolve (ev : Blockade) : Blockade :=
  if ev.isResolved then ev
  else
    let ev := { ev with isResolved := true, isBlocking := false, isActive := false }
    let ev := if ev.resolvedDescription ≠ "" then
        { ev with description := ev.resolvedDescription }
      else ev
    { ev with lpBlocked := false }

/-- `BlockadeEvent.handle_action` (gameEvents.py lines 599-652), acting on
the event, the linking point and the acting character's inventory; returns
(message, event-with-linking-point, inventory). `character.remove_item`
(gameRenderer.py lines 321-331) removes the specific held object from the
inventory list — `List.erase` of the first matching item. -/
def blockade_handle_action (ev : Blockade) (actionIdentifier : String)
    (actionArgs : List String) (inventory : List BItem) :
    String × Blockade × List BItem :=
  if actionIdentifier = "examine" then (ev.description, ev, inventory)
  else if actionIdentifier ≠ "use_item" then ("", ev, inventory)
  else
    let itemName := pyStripLower (actionArgs.headD "")
    let required := pyStripLower (ev.requiredItem.getD "")
    if required ≠ "" ∧ itemName ≠ "" ∧ itemName ≠ required then
      ("The " ++ actionArgs.headD "" ++ " can’t be used to clear this blockade.",
        ev, inventory)
    else if required ≠ "" ∧ itemName ≠ required then ("", ev, inventory)
    else
      let heldItem := inventory.find? (fun it => pyStripLower it.name == required)
      if required ≠ "" ∧ heldItem = none then
        ("You don’t seem to have a " ++ ev.requiredItem.getD "" ++ " to use.",
          ev, inventory)
      else
        let ev2 := blockade_resolve ev
        let nameUsed := match ev.requiredItem with
          | some r => if r ≠ "" then r else actionArgs.headD ""
          | none => actionArgs.headD ""
        let msg := "You use the " ++ nameUsed ++ " to dismantle the blockade."
        let msg := if ev2.resolvedDescription ≠ "" then
            msg ++ " It is now " ++ ev2.resolvedDescription
          else msg
        match heldItem with
        | some it =>
          if it.robustness ≤ 20 then
            (msg ++ " The " ++ it.name ++ " breaks in the process.", ev2,
              inventory.erase it)
          else (msg, ev2, inventory)
        | none => (msg, ev2, inventory)

/-! ## Chain validation via phantom state
(`validate_action_sequence`, actions.py lines 622-908) -/

/-- The per-character fields the phantom simulator snapshots, mutates and
restores: `current_area`, `inventory`, `party` (lines 657-667). -/
structure PChar where
  currentArea : Option Nat
  inventory : List Nat
  party : List Nat
deriving DecidableEq

/-- The per-area field the phantom simulator snapshots, mutates and
restores: `key_items` (lines 669-677). -/
structure PArea where
  keyItems : List Nat
deriving DecidableEq

/-- The world state the validator works on: character and area objects by
id. -/
@[ext] structure PState where
  chars : Nat → PChar
  areas : Nat → PArea

/-- The validator's running data: the (phantom-mutated) world plus the
`snapshot` dict of first-touch saves (lines 649-653). -/
structure VState where
  st : PState
  snapC : List (Nat × PChar)
  snapA : List (Nat × PArea)

/-- Mutate one character object in place. -/
def updPChar (st : PState) (c : Nat) (f : PChar → PChar) : PState :=
  { st with chars := fun x => if x = c then f (st.chars x) else st.chars x }

/-- Mutate one area object in place. -/
def updPArea (st : PState) (a : Nat) (f : PArea → PArea) : PState :=
  { st with areas := fun x => if x = a then f (st.areas x) else st.areas x }

/-- `snap_char` (lines 657-667): remember a character's fields the first
time it is touched (`if ch not in chars: chars[ch] = {...}`). -/
def snap_char (v : VState) (c : Option Nat) : VState :=
  match c with
  | none => v
  | some c =>
    if ((v.snapC.find? (fun p => p.1 == c)).isSome : Bool) then v
    else { v with snapC := (c, v.st.chars c) :: v.snapC }

/-- `snap_area` (lines 669-677). -/
def snap_area (v : VState) (a : Option Nat) : VState :=
  match a with
  | none => v
  | some a =>
    if ((v.snapA.find? (fun p => p.1 == a)).isSome : Bool) then v
    else { v with snapA := (a, v.st.areas a) :: v.snapA }

/-- `move_item_between_chars` (lines 679-698): phantom `src` gives `itm` to
`dst`. An unresolved slot (`None`, or a value failing the `isinstance`
check) is `none`. `if itm in inv_src: inv_src.remove(itm)` is
`List.erase`; `if itm not in inv_dst: inv_dst.append(itm)` is the guarded
append. -/
def phantom_give (v : VState) (itm src dst : Option Nat) : VState :=
  match itm, src, dst with
  | some itm, some src, some dst =>
    let v := snap_char v (some src)
    let v := snap_char v (some dst)
    let v := { v with st :=
                updPChar v.st src (fun ch => { ch with inventory := ch.inventory.erase itm }) }
    { v with st := updPChar v.st dst (fun ch =>
        if itm ∈ ch.inventory then ch else { ch with inventory := ch.inventory ++ [itm] }) }
  | _, _, _ => v

/-- `move_item_floor_to_char` (lines 700-719): phantom pick-up of `itm` from
the floor of `ch`'s current area. -/
def phantom_pickup (v : VState) (itm ch : Option Nat) : VState :=
  match itm, ch with
  | some itm, some ch =>
    match (v.st.chars ch).currentArea with
    | none => v
    | some area =>
      let v := snap_char v (some ch)
      let v := snap_area v (some area)
      let v := { v with st :=
                  updPArea v.st area (fun a => { a with keyItems := a.keyItems.erase itm }) }
      { v with st := updPChar v.st ch (fun c =>
          if itm ∈ c.inventory then c else { c with inventory := c.inventory ++ [itm] }) }
  | _, _ => v

/-- `move_item_char_to_floor` (lines 721-740): phantom drop of `itm` onto
the floor of `ch`'s current area. -/
def phantom_drop (v : VState) (itm ch : Option Nat) : VState :=
  match itm, ch with
  | some itm, some ch =>
    match (v.st.chars ch).currentArea with
    | none => v
    | some area =>
      let v := snap_char v (some ch)
      let v := snap_area v (some area)
      let v := { v with st :=
                  updPChar v.st ch (fun c => { c with inventory := c.inventory.erase itm }) }
      { v with st := updPArea v.st area (fun a =>
          if itm ∈ a.keyItems then a else { a with keyItems := a.keyItems ++ [itm] }) }
  | _, _ => v

/-- One step's slots as `apply_phantom_effect` reads them (lines 748-755).
A slot whose value is not a live entity of the right type (`None`, `"0"`, a
token) is `none`, mirroring the code's `isinstance` checks. -/
structure PAct where
  action : String
  requested : String
  target : Option Nat
  second : Option Nat
  item : Option Nat
  location : Option Nat

/-- The `ask_action` arm of `apply_phantom_effect` (actions.py lines
813-867): simulate the requested action with the asked character as actor.
`party_owner = second if (second is not None and hasattr(second, "party"))
else action_taker` and the give/steal receiver/victim defaults are the
`Option.getD actionTaker`. -/
def apply_phantom_ask (actionTaker asked : Nat) (a : PAct) (v : VState) : VState :=
  if pyStripLower a.requested = "join_party" ∨ pyStripLower a.requested = "quit_party" then
    let partyOwner := a.second.getD actionTaker
    let v2 := snap_char v (some partyOwner)
    if pyStripLower a.requested = "join_party" then
      { v2 with st := updPChar v2.st partyOwner (fun ch =>
          if asked ∈ ch.party then ch else { ch with party := ch.party ++ [asked] }) }
    else
      { v2 with st :=
          updPChar v2.st partyOwner (fun ch => { ch with party := ch.party.erase asked }) }
  else if pyStripLower a.requested = "give_item" then
    phantom_give v a.item (some asked) (some (a.second.getD actionTaker))
  else if pyStripLower a.requested = "steal" then
    phantom_give v a.item (some (a.second.getD actionTaker)) (some asked)
  else if pyStripLower a.requested = "move" then
    match a.location with
    | none => v
    | some loc =>
      let v2 := snap_char v (some asked)
      { v2 with st :=
          updPChar v2.st asked (fun ch => { ch with currentArea := some loc }) }
  else if pyStripLower a.requested = "pick_up" then phantom_pickup v a.item (some asked)
  else if pyStripLower a.requested = "drop_item" then phantom_drop v a.item (some asked)
  else v

/-- `apply_phantom_effect` (actions.py lines 742-870). The Python locals
`act = (act_dict.get("action") or "").strip().lower()` and
`req = (... "requested action" ...).strip().lower()` are written inline as
`pyStripLower a.action` / `pyStripLower a.requested`. -/
def apply_phantom_effect (actionTaker : Nat) (a : PAct) (v : VState) : VState :=
  if pyStripLower a.action = "move" then
    match a.location with
    | none => v
    | some loc =>
      let v2 := snap_char v (some actionTaker)
      { v2 with st :=
          updPChar v2.st actionTaker (fun ch => { ch with currentArea := some loc }) }
  else if pyStripLower a.action = "pick_up" then phantom_pickup v a.item (some actionTaker)
  else if pyStripLower a.action = "drop_item" then phantom_drop v a.item (some actionTaker)
  else if pyStripLower a.action = "give_item" then
    match a.target with
    | some tgt => phantom_give v a.item (some actionTaker) (some tgt)
    | none =>
      let v2 := snap_char v (some actionTaker)
      { v2 with st := updPChar v2.st actionTaker (fun ch =>
          match a.item with
          | some itm => { ch with inventory := ch.inventory.erase itm }
          | none => ch) }
  else if pyStripLower a.action = "steal" then
    match a.target with
    | some tgt => phantom_give v a.item (some tgt) (some actionTaker)
    | none => v
  else if pyStripLower a.action = "join_party" then
    match a.target with
    | some tgt =>
      let v2 := snap_char v (some actionTaker)
      { v2 with st := updPChar v2.st actionTaker (fun ch =>
          if tgt ∈ ch.party then ch else { ch with party := ch.party ++ [tgt] }) }
    | none => v
  else if pyStripLower a.action = "quit_party" then
    match a.target with
    | some tgt =>
      let v2 := snap_char v (some actionTaker)
      { v2 with st :=
          updPChar v2.st actionTaker (fun ch => { ch with party := ch.party.erase tgt }) }
    | none => v
  else if pyStripLower a.action = "ask_action" ∧ pyStripLower a.requested ≠ "" then
    match a.target with
    | none => v
    | some asked => apply_phantom_ask actionTaker asked a v
  else v

/-- The restore block of `validate_action_sequence`'s `finally`
(actions.py lines 886-907): write every snapshotted character's
`current_area` / `inventory` / `party` and every snapshotted area's
`key_items` back from the saved copies. -/
def restore_snapshot (v : VState) : PState :=
  let st := v.snapC.foldl (fun st p => updPChar st p.1 (fun _ => p.2)) v.st
  v.snapA.foldl (fun st p => updPArea st p.1 (fun _ => p.2)) st

/-- `validate_action_sequence` (actions.py lines 622-908) over the phantom
state. `validator` abstracts `validate_action` for one step, which reads but
never writes the four snapshot-protected fields; its result only selects
between the error exit and the next iteration. Returns the function's result
and the world state after the `finally` restore has run. -/
def validate_action_sequence (validator : PAct → PState → Option String)
    (actionTaker : Nat) : List PAct → Nat → VState → Option String × PState
  | [], _, v => (none, restore_snapshot v)
  | a :: rest, idx, v =>
    match validator a v.st with
    | some err => (some ("Action " ++ toString idx ++ ": " ++ err), restore_snapshot v)
    | none =>
      validate_action_sequence validator actionTaker rest (idx + 1)
        (apply_phantom_effect actionTaker a v)

/-! ### Purity of the chain validator -/

/-- Invariant tying a `VState` to the pre-call world `st0`: every snapshot
entry holds the object's original state, and every object without a snapshot
entry is still in its original state. -/
def SnapInv (st0 : PState) (v : VState) : Prop :=
  (∀ p ∈ v.snapC, p.2 = st0.chars p.1) ∧
  (∀ c : Nat, v.snapC.find? (fun p => p.1 == c) = none → v.st.chars c = st0.chars c) ∧
  (∀ p ∈ v.snapA, p.2 = st0.areas p.1) ∧
  (∀ a : Nat, v.snapA.find? (fun p => p.1 == a) = none → v.st.areas a = st0.areas a)

/-! ## Turn scheduling (`turnHandler.py`, `TurnHandler._sorted_actors` lines
442-446 and `TurnHandler.run_one_round` lines 497-609) -/

/-- An actor as the turn handler sees it. `aid` models Python object
identity (the key of `_plans_by_actor` and the member of `processed`);
`speed` is `int(getattr(a, "speed", 5))` and `name` is
`getattr(a, "name", getattr(a, "uid", ""))`. -/
structure TActor where
  aid : Nat
  name : String
  speed : Int
deriving DecidableEq

/-- The sort key of `_sorted_actors`: Python's
`sorted(actors, key=lambda a: (-speed, name))` compares the tuples
lexicographically; `actorKeyLE a b` states that a's key is ≤ b's key. -/
def actorKeyLE (a b : TActor) : Prop :=
  b.speed < a.speed ∨ (a.speed = b.speed ∧ a.name ≤ b.name)

instance : DecidableRel actorKeyLE := fun a b => by
  unfold actorKeyLE; infer_instance

instance : IsTotal TActor actorKeyLE := by
  constructor
  intro a b
  rcases lt_trichotomy a.speed b.speed with h | h | h
  · exact Or.inr (Or.inl h)
  · rcases le_total a.name b.name with hn | hn
    · exact Or.inl (Or.inr ⟨h, hn⟩)
    · exact Or.inr (Or.inr ⟨h.symm, hn⟩)
  · exact Or.inl (Or.inl h)

instance : IsTrans TActor actorKeyLE := by
  constructor
  intro a b c hab hbc
  rcases hab with hab | ⟨hab, han⟩ <;> rcases hbc with hbc | ⟨hbc, hbn⟩
  · exact Or.inl (hbc.trans hab)
  · exact Or.inl (hbc ▸ hab)
  · exact Or.inl (hab.symm ▸ hbc)
  · exact Or.inr ⟨hab.trans hbc, han.trans hbn⟩

/-- `TurnHandler._sorted_actors` (turnHandler.py lines 442-446): the actors
whose plan still `has_next`, sorted by `(-speed, name)`. Python's `sorted`
is a stable sort, modelled by the stable `List.insertionSort`. -/
def sortedActors (pending : List TActor) : List TActor :=
  List.insertionSort actorKeyLE pending

/-- Working state of `run_one_round` (turnHandler.py lines 497-609):
`pending` holds the actors whose plan `has_next`; `processedIds` is the
`processed` set (by identity); `trace` records the order in which actors'
steps are ATTEMPTED — every branch of the loop body (engagement interrupt,
partner block, validation failure, execution) consumes the step and marks
the actor processed. -/
structure RoundState where
  pending : List TActor
  processedIds : List Nat
  trace : List TActor

/-- One `for actor in self._sorted_actors()` pass of `run_one_round`
(turnHandler.py lines 528-596), iterating over a list fixed at the start of
the pass. `eff actor` abstracts the steps that executing `actor` queues for
other actors via `queue_controller_actions` (group-move / group-join
cascades); a queued step overwrites its owner's previous plan. Actors
already in `processed` are skipped; every other actor's step is attempted
and consumed. -/
def runPass (eff : TActor → List TActor) :
    List TActor → RoundState → Bool → RoundState × Bool
  | [], rs, progressed => (rs, progressed)
  | a :: rest, rs, progressed =>
    if a.aid ∈ rs.processedIds then runPass eff rest rs progressed
    else
      let newPlans := eff a
      let keep := rs.pending.filter
        (fun b => b.aid != a.aid && newPlans.all (fun c => c.aid != b.aid))
      runPass eff rest
        { pending := keep ++ newPlans
          processedIds := a.aid :: rs.processedIds
          trace := rs.trace ++ [a] }
        true

/-- The `while True` re-scan loop of `run_one_round` (turnHandler.py lines
525-599): run passes until one makes no progress. `fuel` bounds the
iteration count (the Python loop terminates because `processed` only
grows). -/
def runRound (eff : TActor → List TActor) : Nat → RoundState → RoundState
  | 0, rs => rs
  | fuel + 1, rs =>
    let res := runPass eff (sortedActors rs.pending) rs false
    if res.2 then runRound eff fuel res.1 else res.1

/-! ## Theorems -/

/-! ### Basic lemmas about the friendship maps -/

theorem friendship_with_setFriendship_same (f : Friendships) (c : CharId) (v : Int) :
    friendship_with (setFriendship f c v) c = v := by
  induction f with
  | nil => simp [setFriendship, friendship_with]
  | cons p rest ih =>
    by_cases h : p.1 = c <;> simp [setFriendship, friendship_with, h, ih]

theorem friendship_with_setFriendship_other (f : Friendships) (c d : CharId) (v : Int)
    (hne : d ≠ c) : friendship_with (setFriendship f c v) d = friendship_with f d := by
  induction f with
  | nil => simp [setFriendship, friendship_with, Ne.symm hne]
  | cons p rest ih =>
    by_cases h : p.1 = c
    · simp [setFriendship, friendship_with, h, Ne.symm hne]
    · by_cases h2 : p.1 = d <;> simp [setFriendship, friendship_with, h, h2, hne, ih]

theorem friendshipsInRange_setFriendship (f : Friendships) (c : CharId) (v : Int)
    (hf : friendshipsInRange f) (hv : 0 ≤ v ∧ v ≤ 10) :
    friendshipsInRange (setFriendship f c v) := by
  induction f with
  | nil =>
    intro p hp
    simp [setFriendship] at hp
    simp [hp, hv]
  | cons q rest ih =>
    intro p hp
    by_cases h : q.1 = c
    · simp [setFriendship, h] at hp
      rcases hp with hp | hp
      · simp [hp, hv]
      · exact hf p (List.mem_cons_of_mem _ hp)
    · simp [setFriendship, h] at hp
      rcases hp with hp | hp
      · exact hf p (by simp [hp])
      · exact ih (fun r hr => hf r (List.mem_cons_of_mem _ hr)) p hp

theorem update_friendship_with_of_zero (f : Friendships) (c : CharId) (amount : Int)
    (h : friendship_with f c = 0) : update_friendship_with f c amount = f := by
  simp [update_friendship_with, h]

theorem clamp_zero_ten_mem (n : Int) : 0 ≤ max 0 (min n 10) ∧ max 0 (min n 10) ≤ 10 :=
  ⟨le_max_left _ _, max_le (by norm_num) (min_le_right _ _)⟩

theorem clamp_one_ten_mem {n : Int} (hn : 1 ≤ n) :
    1 ≤ max 0 (min n 10) ∧ max 0 (min n 10) ≤ 10 := by
  have h1 : (1 : Int) ≤ min n 10 := le_min hn (by norm_num)
  refine ⟨le_trans h1 (le_max_right _ _), max_le (by norm_num) (min_le_right _ _)⟩

theorem update_friendship_with_range (f : Friendships) (c : CharId) (amount : Int) :
    friendshipsInRange f → friendshipsInRange (update_friendship_with f c amount) := by
  intro hf
  unfold update_friendship_with
  by_cases h : friendship_with f c ≠ 0
  · rw [if_pos h]
    exact friendshipsInRange_setFriendship _ _ _ hf (clamp_zero_ten_mem _)
  · rw [if_neg h]
    exact hf

theorem update_friendship_with_pos (f : Friendships) (c : CharId) (amount : Int)
    (h : 0 < friendship_with f c) :
    1 ≤ friendship_with (update_friendship_with f c amount) c ∧
      friendship_with (update_friendship_with f c amount) c ≤ 10 := by
  have hne : friendship_with f c ≠ 0 := by omega
  unfold update_friendship_with
  rw [if_pos hne, friendship_with_setFriendship_same]
  exact clamp_one_ten_mem (by split <;> omega)

theorem friendship_with_in_range (f : Friendships) (c : CharId)
    (hf : friendshipsInRange f) : 0 ≤ friendship_with f c ∧ friendship_with f c ≤ 10 := by
  induction f with
  | nil => simp [friendship_with]
  | cons p rest ih =>
    by_cases h : p.1 = c
    · simpa [friendship_with, h] using hf p (by simp)
    · simp only [friendship_with, h, if_false]
      exact ih (fun r hr => hf r (List.mem_cons_of_mem _ hr))

/-- **C7.** Friendship values stored in `Character.friendships` stay in
`[0..10]` under every friendship-mutating operation of the engine
(`update_friendship_with`, `give_item`'s `+1`, `steal`'s `-1`, `harm`'s
victim update); a stored value of `0` is never changed by any of them; and
`update_friendship_with` clamps its result to `[1..10]` whenever the current
value is greater than `0`. -/
theorem friendship_invariants (f : Friendships) (c : CharId) (amount : Int) :
    (friendshipsInRange f → friendshipsInRange (update_friendship_with f c amount)) ∧
    (friendship_with f c = 0 → update_friendship_with f c amount = f) ∧
    (0 < friendship_with f c →
      1 ≤ friendship_with (update_friendship_with f c amount) c ∧
        friendship_with (update_friendship_with f c amount) c ≤ 10) ∧
    (friendshipsInRange f → friendshipsInRange (steal_friendship_update f c)) ∧
    (friendship_with f c = 0 → friendship_with (steal_friendship_update f c) c = 0) ∧
    (friendship_with f c = 0 → give_friendship_update f c = f) ∧
    (friendshipsInRange f → friendshipsInRange (harm_victim_friendship_update f c)) ∧
    (friendship_with f c = 0 → harm_victim_friendship_update f c = f) := by
  refine ⟨update_friendship_with_range f c amount,
    update_friendship_with_of_zero f c amount,
    update_friendship_with_pos f c amount, ?_, ?_, ?_, ?_, ?_⟩
  · intro hf
    apply friendshipsInRange_setFriendship _ _ _ hf
    have := friendship_with_in_range f c hf
    exact ⟨le_max_left _ _, by omega⟩
  · intro h0
    rw [steal_friendship_update, friendship_with_setFriendship_same, h0]
    decide
  · intro h0
    exact update_friendship_with_of_zero f c 1 h0
  · intro hf
    simp only [harm_victim_friendship_update]
    split
    · exact update_friendship_with_range f c _ hf
    · exact hf
  · intro h0
    simp [harm_victim_friendship_update, h0]

/-- Closed instance of `friendship_invariants`: a stored `0` survives a `+1`
update and a steal, and a steal result stays in range. -/
theorem friendship_invariants_witness :
    update_friendship_with [(0, 0)] 0 1 = [(0, 0)] ∧
      friendship_with (steal_friendship_update [(0, 0)] 0) 0 = 0 ∧
      friendshipsInRange (steal_friendship_update [(0, 3)] 0) ∧
      (1 ≤ friendship_with (update_friendship_with [(0, 3)] 0 (-7)) 0 ∧
        friendship_with (update_friendship_with [(0, 3)] 0 (-7)) 0 ≤ 10) :=
  ⟨(friendship_invariants [(0, 0)] 0 1).2.1 (by decide),
   (friendship_invariants [(0, 0)] 0 1).2.2.2.2.1 (by decide),
   (friendship_invariants [(0, 3)] 0 1).2.2.2.1 (by decide),
   (friendship_invariants [(0, 3)] 0 (-7)).2.2.1 (by decide)⟩

/-- **C10.** For every dead character (`is_alive = false`), `heal` and
`apply_damage` return `0` and leave the character (in particular `health`)
unchanged, and so does `update_health` with any amount: a dead character can
never be healed back above 0 health. -/
theorem dead_character_health_frozen (c : HChar) (amount : Int)
    (hdead : c.isAlive = false) :
    apply_damage c amount = (c, 0) ∧ heal c amount = (c, 0) ∧
      update_health c amount = c := by
  have h : ¬ c.isAlive := by simp [hdead]
  refine ⟨?_, ?_, ?_⟩
  · simp [apply_damage, h]
  · simp [heal, h]
  · unfold update_health
    split <;> simp [apply_damage, heal, h]

/-- Closed instance of `dead_character_health_frozen` on a concrete corpse. -/
theorem dead_character_health_frozen_witness :
    heal ⟨"Zed", 0, false, [], 5, 5, none, [], 0⟩ 30 =
      (⟨"Zed", 0, false, [], 5, 5, none, [], 0⟩, 0) :=
  (dead_character_health_frozen ⟨"Zed", 0, false, [], 5, 5, none, [], 0⟩ 30 rfl).2.1

theorem witness_violence_effect_no_method (f : Friendships) (a : CharId)
    (vf sn sd : Int) (k al : Bool) :
    witness_violence_effect false f a vf sn sd k al = f := by
  unfold witness_violence_effect
  split
  · rfl
  · simp

theorem process_harm_witness_phase_id (f : Friendships) (v : CharId) (al : Bool) :
    process_harm_witness_phase f v al = f :=
  witness_violence_effect_no_method f v 5 1 1 false al

theorem updHChar_same (w : HWorld) (c : CharId) (f : HChar → HChar) :
    (updHChar w c f).chars c = f (w.chars c) := by simp [updHChar]

theorem updHChar_other (w : HWorld) (c d : CharId) (f : HChar → HChar) (h : d ≠ c) :
    (updHChar w c f).chars d = w.chars d := by simp [updHChar, h]

theorem update_health_friendships (c : HChar) (amount : Int) :
    (update_health c amount).friendships = c.friendships := by
  simp only [update_health, heal, apply_damage, clamp_health]
  split_ifs <;> rfl

theorem harm_victim_friendship_update_pos (f : Friendships) (atk : CharId)
    (h : 0 < friendship_with f atk) :
    friendship_with (harm_victim_friendship_update f atk) atk = 1 := by
  simp only [harm_victim_friendship_update]
  rw [if_pos h]
  have hne : friendship_with f atk ≠ 0 := by omega
  simp only [update_friendship_with]
  rw [if_pos hne, friendship_with_setFriendship_same,
    if_pos (by omega : friendship_with f atk + -friendship_with f atk ≤ 1)]
  decide

/-- **C1** (refuted — code bug). `process_harm_action` never applies the
witness friendship penalty: for every world and every character other than
the attacker and the victim, a harm action leaves that character's entire
state (in particular their friendship toward the attacker) unchanged, even
though the claimed formula yields a positive penalty (for a fully-caring
witness of a kill at severity 1, a reduction of
`round(5·1) + round(3·1) = 8`). The code's single `witness_violence` call
raises `TypeError` (unexpected keyword `perpetrator`), and its fallback both
scrambles the arguments and dies in the missing `set_friendship_with`
method, with every exception swallowed. -/
theorem harm_applies_no_witness_penalty (w : HWorld) (attacker victim witness : CharId)
    (hwa : witness ≠ attacker) (hwv : witness ≠ victim) :
    (process_harm w attacker victim).1.chars witness = w.chars witness ∧
      witness_violence_penalty 10 1 1 true = 8 := by
  refine ⟨?_, by decide⟩
  simp only [process_harm]
  split
  · rfl
  · split
    · rfl
    · split
      · rfl
      · split <;> simp [updHChar, hwa, hwv]

/-- Closed instance of `harm_applies_no_witness_penalty` in `c1World`: the
witness (character 2) still has friendship 5 toward the attacker after
watching the kill. -/
theorem harm_applies_no_witness_penalty_witness :
    (process_harm c1World 0 1).1.chars 2 = c1World.chars 2 ∧
      witness_violence_penalty 10 1 1 true = 8 :=
  harm_applies_no_witness_penalty c1World 0 1 2 (by decide) (by decide)

/-- **C2** (refuted — code bug). After a harm action whose victim had
friendship > 0 toward the attacker, the stored friendship is exactly 1, never
0: the reset is routed through `update_friendship_with(character, -cur)`,
which clamps any positive starting value to at least 1, although the comment
on actions.py line 2013 announces `friendship -> 0`. -/
theorem harm_sets_victim_friendship_to_one (w : HWorld) (attacker victim : CharId)
    (hne : attacker ≠ victim)
    (hpres : victim ∈ w.residents (w.chars attacker).areaId)
    (ha : (w.chars attacker).isAlive = true)
    (hv : (w.chars victim).isAlive = true)
    (hpos : 0 < friendship_with (w.chars victim).friendships attacker) :
    friendship_with ((process_harm w attacker victim).1.chars victim).friendships attacker
      = 1 := by
  simp only [process_harm]
  rw [if_neg (not_not_intro hpres), if_neg (by simp [ha]), if_neg (by simp [hv])]
  have hvic : victim ≠ attacker := Ne.symm hne
  split <;>
    simp only [updHChar_same, updHChar_other, hvic, ne_eq, not_false_iff,
      update_health_friendships] <;>
    exact harm_victim_friendship_update_pos _ _ hpos

/-- Closed instance of `harm_sets_victim_friendship_to_one` in `c2World`:
friendship 5 toward the attacker becomes 1 (not 0) after the strike. -/
theorem harm_sets_victim_friendship_to_one_witness :
    friendship_with ((process_harm c2World 0 1).1.chars 1).friendships 0 = 1 :=
  harm_sets_victim_friendship_to_one c2World 0 1 (by decide) (by decide) (by decide)
    (by decide) (by decide)

/-- **C6, counterexample.** With an equipped weapon of damage 0 the claim's
formula gives `max(1, round(0 × 1.5)) = 1`, but the harm action deals
`max(1, round(5 × 1.5)) = 8` damage: `base = int(damage) or 5` also replaces
a zero weapon damage by 5. -/
theorem harm_damage_counterexample :
    (process_harm c6World 0 1).2 ≠ spec_damage_C6 (some 0) 5 5 := by decide

/-- **C6 (amended).** The damage dealt by a harm action is
`max(1, round(weapon_damage × (1 + (strength + skill)/20)))`, where
`weapon_damage` is the equipped weapon's damage, with 5 used when no weapon
is equipped **or when the equipped weapon's damage is 0**. -/
theorem harm_damage_formula_amended (w : HWorld) (attacker victim : CharId)
    (hpres : victim ∈ w.residents (w.chars attacker).areaId)
    (ha : (w.chars attacker).isAlive = true)
    (hv : (w.chars victim).isAlive = true) :
    (process_harm w attacker victim).2 =
      spec_damage_C6_amended (w.chars attacker).weaponDamage
        (w.chars attacker).strength (w.chars attacker).skill := by
  have hcd : compute_damage (w.chars attacker) =
      spec_damage_C6_amended (w.chars attacker).weaponDamage
        (w.chars attacker).strength (w.chars attacker).skill := by
    cases hwd : (w.chars attacker).weaponDamage <;>
      simp [compute_damage, equipped_weapon_damage, spec_damage_C6_amended, hwd]
  simp only [process_harm]
  rw [if_neg (not_not_intro hpres), if_neg (by simp [ha]), if_neg (by simp [hv])]
  exact hcd

/-- Closed instance of `harm_damage_formula_amended` in `c6World`. -/
theorem harm_damage_formula_amended_witness :
    (process_harm c6World 0 1).2 = spec_damage_C6_amended (some 0) 5 5 :=
  harm_damage_formula_amended c6World 0 1 (by decide) (by decide) (by decide)

/-- **C3** (refuted — code bug). The suggestion block is dead code: for every
game state, turn counter and story, `get_story` neither increments
`completed_action_turns` nor appends a suggestion, because the block is
guarded by `gameOver == None` while `checkEnd()` always returns an `int`
(0, 1 or 2) — an `int` never compares equal to `None`. The comparison was
presumably meant to be `gameOver == 0`. -/
theorem story_suggestion_never_appended (s : EndCheckState) (turns : Int)
    (story tip : String) :
    get_story_suggestion_step s turns story tip = (turns, story) ∧ checkEnd s ≠ none := by
  have hne : checkEnd s ≠ none := by
    simp only [checkEnd]
    split
    · simp
    · split <;> split <;> simp
  refine ⟨?_, hne⟩
  simp only [get_story_suggestion_step]
  rw [if_neg hne]

theorem move_to_party_eq (st : MState) (c : Nat) (dest : Nat) (x : Nat) :
    (move_to st c dest x).party = (st x).party := by
  unfold move_to
  split <;> rfl

theorem walk_path_keeps_party_member (blocked : Nat → Nat → Bool) (c : Nat)
    (path : List Nat) (st : MState) (a : Nat) (hmem : a ∈ (st c).party)
    (harea : (st a).areaId = (st c).areaId) :
    (walk_path blocked c path st a).areaId = (walk_path blocked c path st c).areaId := by
  induction path generalizing st with
  | nil => exact harea
  | cons d rest ih =>
    unfold walk_path
    split
    · exact harea
    · apply ih
      · rw [move_to_party_eq]
        exact hmem
      · simp [move_to, hmem]

/-- **C4** (refuted — code bug). A move action never queues a `group-move`
step for anybody: `move_to` drags every party member along on each hop, so
when the queueing loop runs, every ally recorded in `allies_in_start` is
already in the final destination and the "skip if ally is already in
destination" safety check discards them all. In particular, party members
co-located with the mover do not stay behind: every party member ends the
walk in the mover's final area. -/
theorem move_queues_no_group_steps (blocked : Nat → Nat → Bool) (st : MState)
    (c : Nat) (path : List Nat) :
    (process_move_group blocked st c path).2 = [] ∧
      (∀ a, a ∈ (st c).party → (st a).areaId = (st c).areaId →
        ((process_move_group blocked st c path).1 a).areaId =
          ((process_move_group blocked st c path).1 c).areaId) := by
  constructor
  · simp only [process_move_group]
    rw [List.filterMap_eq_nil_iff]
    intro a ha
    rw [List.mem_filter] at ha
    obtain ⟨hmem, hcond⟩ := ha
    have harea : (st a).areaId = (st c).areaId := by
      simp only [Bool.and_eq_true, beq_iff_eq] at hcond
      exact hcond.2
    rw [if_pos (walk_path_keeps_party_member blocked c path st a hmem harea)]
  · intro a hmem harea
    simpa only [process_move_group] using
      walk_path_keeps_party_member blocked c path st a hmem harea

/-- Closed instance of `move_queues_no_group_steps`: leader 0 with alive ally
1 in area 0 moves one hop to area 1; the ally is dragged along and no
`group-move` step is queued. -/
theorem move_queues_no_group_steps_witness :
    (process_move_group (fun _ _ => false)
      (fun x => if x = 0 then ⟨0, [1], true⟩ else ⟨0, [0], true⟩) 0 [1]).2 = [] ∧
      ((process_move_group (fun _ _ => false)
        (fun x => if x = 0 then ⟨0, [1], true⟩ else ⟨0, [0], true⟩) 0 [1]).1 1).areaId =
        ((process_move_group (fun _ _ => false)
          (fun x => if x = 0 then ⟨0, [1], true⟩ else ⟨0, [0], true⟩) 0 [1]).1 0).areaId :=
  ⟨(move_queues_no_group_steps (fun _ _ => false)
      (fun x => if x = 0 then ⟨0, [1], true⟩ else ⟨0, [0], true⟩) 0 [1]).1,
   (move_queues_no_group_steps (fun _ _ => false)
      (fun x => if x = 0 then ⟨0, [1], true⟩ else ⟨0, [0], true⟩) 0 [1]).2 1
      (by decide) (by decide)⟩

/-- **C8.** (confirmed) When a character whose inventory contains the
blockade's required item uses that item on a not-yet-resolved blockade, the
blockade resolves: `is_active` and `is_blocking` become false, `is_resolved`
becomes true, the description becomes `resolved_description`, the
LinkingPoint's `blocked` flag is cleared, and the tool is removed from the
inventory exactly when its robustness is ≤ 20. (`resolved_description ≠ ""`
holds for every constructed blockade whose description is nonempty, since
the constructor sets `resolved_description = resolved_description or
description`.) -/
theorem blockade_use_item_resolves (ev : Blockade) (inventory : List BItem)
    (nm req : String) (tool : BItem)
    (hreq : ev.requiredItem = some req)
    (hnm : pyStripLower nm = pyStripLower req)
    (hheld : inventory.find? (fun it => pyStripLower it.name == pyStripLower req)
      = some tool)
    (hnotres : ev.isResolved = false)
    (hdesc : ev.resolvedDescription ≠ "") :
    let r := blockade_handle_action ev "use_item" [nm] inventory
    r.2.1.isActive = false ∧ r.2.1.isBlocking = false ∧ r.2.1.isResolved = true ∧
      r.2.1.description = ev.resolvedDescription ∧ r.2.1.lpBlocked = false ∧
      (tool.robustness ≤ 20 → r.2.2 = inventory.erase tool) ∧
      (¬ tool.robustness ≤ 20 → r.2.2 = inventory) := by
  have hresolve : blockade_resolve ev =
      { ev with
        isResolved := true
        isBlocking := false
        isActive := false
        description := ev.resolvedDescription
        lpBlocked := false } := by
    simp only [blockade_resolve, hnotres]
    rw [if_neg (by simp), if_pos hdesc]
  simp only [blockade_handle_action]
  rw [if_neg (by decide), if_neg (by decide)]
  simp only [List.headD, hreq, Option.getD, hnm]
  rw [if_neg (by simp), if_neg (by simp), hheld,
    if_neg (by simp), hresolve]
  by_cases hrob : tool.robustness ≤ 20 <;> simp [hrob]

/-- Closed instance of `blockade_use_item_resolves`: using a Fire Axe of
robustness 10 on the barricaded door resolves the blockade and breaks the
axe. -/
theorem blockade_use_item_resolves_witness :
    let r := blockade_handle_action
      ⟨"A barricaded door.", "dismantled.", some "Fire Axe", false, true, true, true⟩
      "use_item" ["Fire Axe"] [⟨"Fire Axe", 10⟩]
    r.2.1.isActive = false ∧ r.2.1.isBlocking = false ∧ r.2.1.isResolved = true ∧
      r.2.1.description = "dismantled." ∧ r.2.1.lpBlocked = false ∧
      ((⟨"Fire Axe", 10⟩ : BItem).robustness ≤ 20 →
        r.2.2 = [(⟨"Fire Axe", 10⟩ : BItem)].erase ⟨"Fire Axe", 10⟩) ∧
      (¬ (⟨"Fire Axe", 10⟩ : BItem).robustness ≤ 20 →
        r.2.2 = [(⟨"Fire Axe", 10⟩ : BItem)]) :=
  blockade_use_item_resolves
    ⟨"A barricaded door.", "dismantled.", some "Fire Axe", false, true, true, true⟩
    [⟨"Fire Axe", 10⟩] "Fire Axe" "Fire Axe" ⟨"Fire Axe", 10⟩ rfl rfl (by decide)
    rfl (by decide)

theorem snap_char_st (v : VState) (c : Option Nat) : (snap_char v c).st = v.st := by
  cases c with
  | none => rfl
  | some c =>
    simp only [snap_char]
    split <;> rfl

theorem snap_char_snapA (v : VState) (c : Option Nat) :
    (snap_char v c).snapA = v.snapA := by
  cases c with
  | none => rfl
  | some c =>
    simp only [snap_char]
    split <;> rfl

theorem snap_area_st (v : VState) (a : Option Nat) : (snap_area v a).st = v.st := by
  cases a with
  | none => rfl
  | some a =>
    simp only [snap_area]
    split <;> rfl

theorem snap_area_snapC (v : VState) (a : Option Nat) :
    (snap_area v a).snapC = v.snapC := by
  cases a with
  | none => rfl
  | some a =>
    simp only [snap_area]
    split <;> rfl

theorem find?_isSome_cons {α : Type} (q : α → Bool) (x : α) (l : List α)
    (h : (l.find? q).isSome) : ((x :: l).find? q).isSome := by
  rw [List.find?_cons]
  split
  · rfl
  · exact h

theorem snap_char_isSome_self (v : VState) (c : Nat) :
    (((snap_char v (some c)).snapC.find? (fun p => p.1 == c)).isSome) := by
  simp only [snap_char]
  split
  · assumption
  · rw [List.find?_cons]
    simp

theorem snap_char_isSome_mono (v : VState) (c : Option Nat) (d : Nat)
    (h : (v.snapC.find? (fun p => p.1 == d)).isSome) :
    ((snap_char v c).snapC.find? (fun p => p.1 == d)).isSome := by
  cases c with
  | none => exact h
  | some c =>
    simp only [snap_char]
    split
    · exact h
    · exact find?_isSome_cons _ _ _ h

theorem snap_area_isSome_self (v : VState) (a : Nat) :
    (((snap_area v (some a)).snapA.find? (fun p => p.1 == a)).isSome) := by
  simp only [snap_area]
  split
  · assumption
  · rw [List.find?_cons]
    simp

theorem snapInv_snap_char (st0 : PState) (v : VState) (c : Option Nat)
    (h : SnapInv st0 v) : SnapInv st0 (snap_char v c) := by
  cases c with
  | none => exact h
  | some c =>
    obtain ⟨h1, h2, h3, h4⟩ := h
    simp only [snap_char]
    split
    · exact ⟨h1, h2, h3, h4⟩
    · rename_i hnone
      have hfind : v.snapC.find? (fun p => p.1 == c) = none :=
        Option.not_isSome_iff_eq_none.mp hnone
      refine ⟨?_, ?_, h3, h4⟩
      · intro p hp
        rcases List.mem_cons.mp hp with hp | hp
        · subst hp
          exact h2 c hfind
        · exact h1 p hp
      · intro d hd
        rw [List.find?_cons] at hd
        split at hd
        · exact absurd hd (by simp)
        · exact h2 d hd

theorem snapInv_snap_area (st0 : PState) (v : VState) (a : Option Nat)
    (h : SnapInv st0 v) : SnapInv st0 (snap_area v a) := by
  cases a with
  | none => exact h
  | some a =>
    obtain ⟨h1, h2, h3, h4⟩ := h
    simp only [snap_area]
    split
    · exact ⟨h1, h2, h3, h4⟩
    · rename_i hnone
      have hfind : v.snapA.find? (fun p => p.1 == a) = none :=
        Option.not_isSome_iff_eq_none.mp hnone
      refine ⟨h1, h2, ?_, ?_⟩
      · intro p hp
        rcases List.mem_cons.mp hp with hp | hp
        · subst hp
          exact h4 a hfind
        · exact h3 p hp
      · intro d hd
        rw [List.find?_cons] at hd
        split at hd
        · exact absurd hd (by simp)
        · exact h4 d hd

theorem snapInv_upd_char (st0 : PState) (v : VState) (c : Nat) (f : PChar → PChar)
    (h : SnapInv st0 v) (hs : (v.snapC.find? (fun p => p.1 == c)).isSome) :
    SnapInv st0 { v with st := updPChar v.st c f } := by
  obtain ⟨h1, h2, h3, h4⟩ := h
  refine ⟨h1, ?_, h3, ?_⟩
  · intro d hd
    have hdc : d ≠ c := by
      intro heq
      subst heq
      rw [hd] at hs
      simp at hs
    simp only [updPChar]
    rw [if_neg hdc]
    exact h2 d hd
  · intro a ha
    exact h4 a ha

theorem snapInv_upd_area (st0 : PState) (v : VState) (a : Nat) (f : PArea → PArea)
    (h : SnapInv st0 v) (hs : (v.snapA.find? (fun p => p.1 == a)).isSome) :
    SnapInv st0 { v with st := updPArea v.st a f } := by
  obtain ⟨h1, h2, h3, h4⟩ := h
  refine ⟨h1, ?_, h3, ?_⟩
  · intro d hd
    exact h2 d hd
  · intro b hb
    have hba : b ≠ a := by
      intro heq
      subst heq
      rw [hb] at hs
      simp at hs
    simp only [updPArea]
    rw [if_neg hba]
    exact h4 b hb

theorem snapInv_snap_upd_char (st0 : PState) (v : VState) (c : Nat) (f : PChar → PChar)
    (h : SnapInv st0 v) :
    SnapInv st0 { snap_char v (some c) with st := updPChar (snap_char v (some c)).st c f } :=
  snapInv_upd_char st0 _ c f (snapInv_snap_char st0 v _ h) (snap_char_isSome_self v c)

theorem snapInv_phantom_give (st0 : PState) (v : VState) (itm src dst : Option Nat)
    (h : SnapInv st0 v) : SnapInv st0 (phantom_give v itm src dst) := by
  cases itm with
  | none => exact h
  | some itm =>
    cases src with
    | none => exact h
    | some src =>
      cases dst with
      | none => exact h
      | some dst =>
        exact snapInv_upd_char st0 _ dst _
          (snapInv_upd_char st0 _ src _
            (snapInv_snap_char st0 _ (some dst) (snapInv_snap_char st0 v (some src) h))
            (snap_char_isSome_mono _ _ _ (snap_char_isSome_self v src)))
          (snap_char_isSome_self (snap_char v (some src)) dst)

theorem snapInv_phantom_pickup (st0 : PState) (v : VState) (itm ch : Option Nat)
    (h : SnapInv st0 v) : SnapInv st0 (phantom_pickup v itm ch) := by
  cases itm with
  | none => exact h
  | some itm =>
    cases ch with
    | none => exact h
    | some ch =>
      simp only [phantom_pickup]
      cases harea : (v.st.chars ch).currentArea with
      | none => exact h
      | some area =>
        have hsC : ((snap_area (snap_char v (some ch)) (some area)).snapC.find?
            (fun p => p.1 == ch)).isSome := by
          rw [snap_area_snapC]
          exact snap_char_isSome_self v ch
        exact snapInv_upd_char st0 _ ch
          (fun c => if itm ∈ c.inventory then c
            else { c with inventory := c.inventory ++ [itm] })
          (snapInv_upd_area st0 _ area
            (fun a => { a with keyItems := a.keyItems.erase itm })
            (snapInv_snap_area st0 _ (some area) (snapInv_snap_char st0 v (some ch) h))
            (snap_area_isSome_self _ area))
          hsC

theorem snapInv_phantom_drop (st0 : PState) (v : VState) (itm ch : Option Nat)
    (h : SnapInv st0 v) : SnapInv st0 (phantom_drop v itm ch) := by
  cases itm with
  | none => exact h
  | some itm =>
    cases ch with
    | none => exact h
    | some ch =>
      simp only [phantom_drop]
      cases harea : (v.st.chars ch).currentArea with
      | none => exact h
      | some area =>
        have hsC : ((snap_area (snap_char v (some ch)) (some area)).snapC.find?
            (fun p => p.1 == ch)).isSome := by
          rw [snap_area_snapC]
          exact snap_char_isSome_self v ch
        exact snapInv_upd_area st0 _ area
          (fun a => if itm ∈ a.keyItems then a
            else { a with keyItems := a.keyItems ++ [itm] })
          (snapInv_upd_char st0 _ ch
            (fun c => { c with inventory := c.inventory.erase itm })
            (snapInv_snap_area st0 _ (some area) (snapInv_snap_char st0 v (some ch) h))
            hsC)
          (snap_area_isSome_self _ area)

theorem snapInv_apply_phantom_ask (st0 : PState) (t asked : Nat) (a : PAct)
    (v : VState) (h : SnapInv st0 v) : SnapInv st0 (apply_phantom_ask t asked a v) := by
  unfold apply_phantom_ask
  repeat' split
  all_goals
    first
      | exact h
      | exact snapInv_snap_upd_char st0 _ _ _ h
      | exact snapInv_phantom_pickup st0 _ _ _ h
      | exact snapInv_phantom_drop st0 _ _ _ h
      | exact snapInv_phantom_give st0 _ _ _ _ h

theorem snapInv_apply_phantom_effect (st0 : PState) (t : Nat) (a : PAct) (v : VState)
    (h : SnapInv st0 v) : SnapInv st0 (apply_phantom_effect t a v) := by
  unfold apply_phantom_effect
  repeat' split
  all_goals
    first
      | exact h
      | exact snapInv_snap_upd_char st0 _ _ _ h
      | exact snapInv_phantom_pickup st0 _ _ _ h
      | exact snapInv_phantom_drop st0 _ _ _ h
      | exact snapInv_phantom_give st0 _ _ _ _ h
      | exact snapInv_apply_phantom_ask st0 _ _ _ _ h

theorem foldl_updPChar_areas (l : List (Nat × PChar)) (st : PState) :
    (l.foldl (fun st p => updPChar st p.1 (fun _ => p.2)) st).areas = st.areas := by
  induction l generalizing st with
  | nil => rfl
  | cons p l ih =>
    simp only [List.foldl_cons]
    rw [ih]
    rfl

theorem foldl_updPArea_chars (l : List (Nat × PArea)) (st : PState) :
    (l.foldl (fun st p => updPArea st p.1 (fun _ => p.2)) st).chars = st.chars := by
  induction l generalizing st with
  | nil => rfl
  | cons p l ih =>
    simp only [List.foldl_cons]
    rw [ih]
    rfl

theorem restore_foldC_chars (st0 : PState) (l : List (Nat × PChar)) (st : PState)
    (h1 : ∀ p ∈ l, p.2 = st0.chars p.1)
    (h2 : ∀ c, l.find? (fun p => p.1 == c) = none → st.chars c = st0.chars c) (c : Nat) :
    (l.foldl (fun st p => updPChar st p.1 (fun _ => p.2)) st).chars c = st0.chars c := by
  induction l generalizing st with
  | nil => exact h2 c rfl
  | cons p l ih =>
    simp only [List.foldl_cons]
    apply ih
    · intro q hq
      exact h1 q (List.mem_cons_of_mem _ hq)
    · intro d hd
      by_cases hdp : d = p.1
      · subst hdp
        simp only [updPChar, if_true]
        exact h1 p (List.mem_cons_self _ _)
      · simp only [updPChar]
        rw [if_neg hdp]
        apply h2
        rw [List.find?_cons]
        split
        · rename_i hbeq
          rw [beq_iff_eq] at hbeq
          exact (hdp hbeq.symm).elim
        · exact hd

theorem restore_foldA_areas (st0 : PState) (l : List (Nat × PArea)) (st : PState)
    (h3 : ∀ p ∈ l, p.2 = st0.areas p.1)
    (h4 : ∀ a, l.find? (fun p => p.1 == a) = none → st.areas a = st0.areas a) (a : Nat) :
    (l.foldl (fun st p => updPArea st p.1 (fun _ => p.2)) st).areas a = st0.areas a := by
  induction l generalizing st with
  | nil => exact h4 a rfl
  | cons p l ih =>
    simp only [List.foldl_cons]
    apply ih
    · intro q hq
      exact h3 q (List.mem_cons_of_mem _ hq)
    · intro d hd
      by_cases hdp : d = p.1
      · subst hdp
        simp only [updPArea, if_true]
        exact h3 p (List.mem_cons_self _ _)
      · simp only [updPArea]
        rw [if_neg hdp]
        apply h4
        rw [List.find?_cons]
        split
        · rename_i hbeq
          rw [beq_iff_eq] at hbeq
          exact (hdp hbeq.symm).elim
        · exact hd

/-- The `finally` restore brings the world back to the pre-call state. -/
theorem restore_snapshot_eq (st0 : PState) (v : VState) (h : SnapInv st0 v) :
    restore_snapshot v = st0 := by
  obtain ⟨h1, h2, h3, h4⟩ := h
  unfold restore_snapshot
  apply PState.ext
  · funext c
    rw [foldl_updPArea_chars]
    exact restore_foldC_chars st0 _ _ h1 h2 c
  · funext a
    apply restore_foldA_areas st0 _ _ h3
    intro b hb
    rw [foldl_updPChar_areas]
    exact h4 b hb

theorem validate_action_sequence_aux (validator : PAct → PState → Option String)
    (actionTaker : Nat) (acts : List PAct) (idx : Nat) (st0 : PState) (v : VState)
    (h : SnapInv st0 v) :
    (validate_action_sequence validator actionTaker acts idx v).2 = st0 := by
  induction acts generalizing idx v with
  | nil => exact restore_snapshot_eq st0 v h
  | cons a rest ih =>
    simp only [validate_action_sequence]
    cases hval : validator a v.st with
    | some err =>
      simp only [hval]
      exact restore_snapshot_eq st0 v h
    | none =>
      simp only [hval]
      exact ih _ _ (snapInv_apply_phantom_effect st0 actionTaker a v h)

/-- **C5.** (confirmed) Phantom-validation purity: for every single-step
validator, every list of action steps and every starting world, the world
state after `validate_action_sequence` returns — whether with `None` or with
an error string — equals the world before the call: every character's
`current_area`, `inventory` and `party` and every area's `key_items` are
restored to their pre-call values by the `finally` block. -/
theorem validate_action_sequence_restores_state
    (validator : PAct → PState → Option String) (actionTaker : Nat)
    (acts : List PAct) (st : PState) :
    (validate_action_sequence validator actionTaker acts 1 ⟨st, [], []⟩).2 = st :=
  validate_action_sequence_aux validator actionTaker acts 1 st ⟨st, [], []⟩
    ⟨fun p hp => absurd hp (List.not_mem_nil p),
     fun _ _ => rfl,
     fun p hp => absurd hp (List.not_mem_nil p),
     fun _ _ => rfl⟩

theorem runPass_trace_of_fresh (eff : TActor → List TActor) (order : List TActor)
    (rs : RoundState) (pr : Bool)
    (hnodup : (order.map (fun a => a.aid)).Nodup)
    (hunproc : ∀ a ∈ order, a.aid ∉ rs.processedIds) :
    (runPass eff order rs pr).1.trace = rs.trace ++ order := by
  induction order generalizing rs pr with
  | nil => simp [runPass]
  | cons a rest ih =>
    simp only [runPass]
    rw [if_neg (hunproc a (List.mem_cons_self _ _))]
    rw [List.map_cons, List.nodup_cons] at hnodup
    have hstep : ∀ b ∈ rest, b.aid ∉ a.aid :: rs.processedIds := by
      intro b hb hmem
      rcases List.mem_cons.mp hmem with hmem | hmem
      · exact hnodup.1 (hmem ▸ List.mem_map_of_mem _ hb)
      · exact hunproc b (List.mem_cons_of_mem _ hb) hmem
    rw [ih _ true hnodup.2 hstep]
    simp

theorem runPass_trace_extends (eff : TActor → List TActor) (order : List TActor)
    (rs : RoundState) (pr : Bool) :
    ∃ l, (runPass eff order rs pr).1.trace = rs.trace ++ l := by
  induction order generalizing rs pr with
  | nil => exact ⟨[], by simp [runPass]⟩
  | cons a rest ih =>
    simp only [runPass]
    split
    · exact ih rs pr
    · obtain ⟨l, hl⟩ := ih
        { pending := rs.pending.filter
            (fun b => b.aid != a.aid && (eff a).all (fun c => c.aid != b.aid)) ++ eff a
          processedIds := a.aid :: rs.processedIds
          trace := rs.trace ++ [a] } true
      exact ⟨a :: l, by rw [hl]; simp⟩

theorem runRound_trace_extends (eff : TActor → List TActor) (fuel : Nat)
    (rs : RoundState) : ∃ l, (runRound eff fuel rs).trace = rs.trace ++ l := by
  induction fuel generalizing rs with
  | zero => exact ⟨[], by simp [runRound]⟩
  | succ fuel ih =>
    simp only [runRound]
    split
    · obtain ⟨l1, hl1⟩ := runPass_trace_extends eff (sortedActors rs.pending) rs false
      obtain ⟨l2, hl2⟩ := ih (runPass eff (sortedActors rs.pending) rs false).1
      exact ⟨l1 ++ l2, by rw [hl2, hl1, List.append_assoc]⟩
    · obtain ⟨l1, hl1⟩ := runPass_trace_extends eff (sortedActors rs.pending) rs false
      exact ⟨l1, hl1⟩

theorem runRound_succ_trace (eff : TActor → List TActor) (f : Nat)
    (pending : List TActor) (procd : List Nat) (trace : List TActor) :
    ∃ l, (runRound eff (f + 1) ⟨pending, procd, trace⟩).trace =
      (runPass eff (sortedActors pending) ⟨pending, procd, trace⟩ false).1.trace ++ l := by
  simp only [runRound]
  split
  · exact runRound_trace_extends eff f _
  · exact ⟨[], by simp⟩

/-- **C9.** (confirmed) Within one round of the turn handler, the actors
whose steps are queued at the start of the round are attempted in descending
speed order with ties broken by stable name order: whenever
speed(A) > speed(B) and both have queued steps, A's step is attempted
strictly before B's — for every cascade behaviour `eff` of the executed
steps and any loop bound. -/
theorem round_attempts_faster_first (eff : TActor → List TActor) (fuel : Nat)
    (init : List TActor) (A B : TActor)
    (hA : A ∈ init) (hB : B ∈ init) (hspeed : B.speed < A.speed)
    (hnodup : (init.map (fun a => a.aid)).Nodup) (hfuel : 0 < fuel) :
    ∃ i j : Nat, i < j ∧
      (runRound eff fuel ⟨init, [], []⟩).trace[i]? = some A ∧
      (runRound eff fuel ⟨init, [], []⟩).trace[j]? = some B := by
  obtain ⟨f, rfl⟩ : ∃ f, fuel = f + 1 := ⟨fuel - 1, by omega⟩
  have hperm : List.Perm (sortedActors init) init :=
    List.perm_insertionSort actorKeyLE init
  have hnodup' : ((sortedActors init).map (fun a => a.aid)).Nodup :=
    ((hperm.map _).nodup_iff).mpr hnodup
  have hpass : (runPass eff (sortedActors init) ⟨init, [], []⟩ false).1.trace
      = sortedActors init := by
    simpa using runPass_trace_of_fresh eff (sortedActors init) ⟨init, [], []⟩ false
      hnodup' (fun a _ => List.not_mem_nil _)
  have hsorted : (sortedActors init).Sorted actorKeyLE :=
    List.sorted_insertionSort actorKeyLE init
  have hAmem : A ∈ sortedActors init := by
    simpa [sortedActors] using hA
  have hBmem : B ∈ sortedActors init := by
    simpa [sortedActors] using hB
  obtain ⟨⟨i, hi⟩, hgi⟩ := List.mem_iff_get.mp hAmem
  obtain ⟨⟨j, hj⟩, hgj⟩ := List.mem_iff_get.mp hBmem
  have hij : i < j := by
    rcases lt_trichotomy i j with h | h | h
    · exact h
    · exfalso
      have hab : A = B := by
        subst h
        rw [← hgi, ← hgj]
      rw [hab] at hspeed
      exact lt_irrefl _ hspeed
    · exfalso
      have hrel := hsorted.rel_get_of_lt
        (show (⟨j, hj⟩ : Fin (sortedActors init).length) < ⟨i, hi⟩ from h)
      rw [hgi, hgj] at hrel
      rcases hrel with hlt | ⟨heq, _⟩
      · omega
      · omega
  obtain ⟨l0, hl0⟩ := runRound_succ_trace eff f init [] []
  rw [hpass] at hl0
  refine ⟨i, j, hij, ?_, ?_⟩
  · rw [hl0, List.getElem?_append_left hi, List.getElem?_eq_getElem hi]
    exact congrArg some ((List.get_eq_getElem _ _).symm.trans hgi)
  · rw [hl0, List.getElem?_append_left hj, List.getElem?_eq_getElem hj]
    exact congrArg some ((List.get_eq_getElem _ _).symm.trans hgj)

/-- Closed instance of `round_attempts_faster_first`: with the slower actor
queued first, the faster actor is still attempted first. -/
theorem round_attempts_faster_first_witness :
    ∃ i j : Nat, i < j ∧
      (runRound (fun _ => []) 1
        ⟨[⟨1, "Slow", 3⟩, ⟨0, "Fast", 7⟩], [], []⟩).trace[i]? = some ⟨0, "Fast", 7⟩ ∧
      (runRound (fun _ => []) 1
        ⟨[⟨1, "Slow", 3⟩, ⟨0, "Fast", 7⟩], [], []⟩).trace[j]? = some ⟨1, "Slow", 3⟩ :=
  round_attempts_faster_first (fun _ => []) 1 [⟨1, "Slow", 3⟩, ⟨0, "Fast", 7⟩]
    ⟨0, "Fast", 7⟩ ⟨1, "Slow", 3⟩ (by decide) (by decide) (by decide) (by decide)
    (by decide)
